import Mathlib

/-!
Verification development for the `ml_utils` utility library
(`ml_utils/utils.py`).

The file shallowly embeds the functions the claims are about:

* `audit_deep` — the recursive fitted-status auditor.  A scikit-learn
  component is modelled by the inductive type `Estimator`: a leaf
  estimator, a `Pipeline` (ordered named steps), or a
  `ColumnTransformer` (whose resolved list `transformers_` exists only
  after fitting, hence an `Option`).  The external
  `sklearn.utils.validation.check_is_fitted` capability is modelled by
  the per-node `FitStatus`: it can succeed (`fitted`), raise the
  distinguished `NotFittedError` (`notFitted`), or raise any other
  exception (`faulty msg`).  `print` is modelled as an accumulated list
  of output lines, and an uncaught exception as the `Option String`
  component of the result: once it is `some msg` the traversal stops
  and the message propagates to the caller.

* `load_model` — the deserialization wrapper.  The external
  `joblib.load` call is a parameter producing a `LoadResult`: the
  loaded object, a `FileNotFoundError`, or any other exception.

* `skim_data` — the dataframe skimmer.  A pandas dataframe is modelled
  as a list of named, dtype-tagged columns of cells; `NaN` is the
  `Cell.null` cell, and numeric values are modelled as exact rational
  numbers.
-/

namespace MlUtils

/-- Outcome of the external `check_is_fitted(estimator)` call on one
component: success, the distinguished `NotFittedError`, or any other
exception carrying a message. -/
inductive FitStatus where
  | fitted
  | notFitted
  | faulty (msg : String)
deriving DecidableEq, Repr

/-- The result of `check_is_fitted` on a status. `faulty` models an
exception other than `NotFittedError`. -/
def FitStatus.ok : FitStatus → Bool
  | .faulty _ => false
  | _ => true

/-- A scikit-learn component as seen by `audit_deep`: a leaf estimator,
a `Pipeline` with its `named_steps` (insertion-ordered dict, modelled as
a list of name/step pairs), or a `ColumnTransformer` whose
`transformers_` attribute (name, transformer, columns triples) exists
only once the transformer has been fit. -/
inductive Estimator where
  | leaf (status : FitStatus)
  | pipeline (status : FitStatus) (named_steps : List (String × Estimator))
  | colTransformer (status : FitStatus)
      (transformers_ : Option (List (String × Estimator × List String)))
deriving Repr

/-- `check_is_fitted` delegated to the status of the component itself: the
fitted-check is entirely a capability of the external framework, so each
node of the model carries its outcome. -/
def check_is_fitted : Estimator → FitStatus
  | .leaf st => st
  | .pipeline st _ => st
  | .colTransformer st _ => st

/-- `"  " * indent` — the indentation prefix of a report line. -/
def spaces (indent : Nat) : String :=
  String.join (List.replicate indent "  ")

mutual

/-- `audit_deep(estimator, name="root", indent=0)` from
`ml_utils/utils.py`.  Returns the printed lines and, in the second
component, the message of an exception that escaped the traversal
(`none` when the call returned normally).  The `try/except
NotFittedError` block prints the `[✓]`/`[X]` status line; any other
exception from the check propagates immediately, skipping the
shape dispatch.  `isinstance(…, Pipeline)` recursion walks
`named_steps.items()` in order; `elif isinstance(…, ColumnTransformer)`
recursion walks `transformers_` (when the attribute exists), skipping
the `"remainder"` entry. -/
def audit_deep (estimator : Estimator) (name : String) (indent : Nat) :
    List String × Option String :=
  let space := spaces indent
  match check_is_fitted estimator with
  | .faulty msg => ([], some msg)
  | st =>
    let line :=
      match st with
      | .fitted => space ++ "[✓] " ++ name ++ " is fitted."
      | _ => space ++ "[X] " ++ name ++ " IS NOT FITTED!"
    match estimator with
    | .pipeline _ steps =>
      let rest := audit_steps steps (indent + 1)
      (line :: rest.1, rest.2)
    | .colTransformer _ (some ts) =>
      let rest := audit_transformers ts (indent + 1)
      (line :: rest.1, rest.2)
    | _ => ([line], none)

/-- The `for step_name, step_obj in estimator.named_steps.items()` loop
of `audit_deep`: each step is audited as `"Step: " + step_name` at the
child indentation; an exception escaping a recursive call aborts the
loop and propagates. -/
def audit_steps (steps : List (String × Estimator)) (indent : Nat) :
    List String × Option String :=
  match steps with
  | [] => ([], none)
  | (step_name, step_obj) :: rest =>
    let r := audit_deep step_obj ("Step: " ++ step_name) indent
    match r.2 with
    | some msg => (r.1, some msg)
    | none =>
      let r2 := audit_steps rest indent
      (r.1 ++ r2.1, r2.2)

/-- The `for trans_name, trans_obj, _ in estimator.transformers_` loop
of `audit_deep`: the `"remainder"` entry is skipped (`continue`); every
other entry is audited as `"Transformer: " + trans_name` at the child
indentation; an exception escaping a recursive call aborts the loop and
propagates. -/
def audit_transformers (ts : List (String × Estimator × List String)) (indent : Nat) :
    List String × Option String :=
  match ts with
  | [] => ([], none)
  | (trans_name, trans_obj, _) :: rest =>
    if trans_name = "remainder" then audit_transformers rest indent
    else
      let r := audit_deep trans_obj ("Transformer: " ++ trans_name) indent
      match r.2 with
      | some msg => (r.1, some msg)
      | none =>
        let r2 := audit_transformers rest indent
        (r.1 ++ r2.1, r2.2)

end

/-- The success line `f"{space}[✓] {name} is fitted."`. -/
def fitted_line (indent : Nat) (name : String) : String :=
  spaces indent ++ "[✓] " ++ name ++ " is fitted."

/-- The failure line `f"{space}[X] {name} IS NOT FITTED!"`. -/
def not_fitted_line (indent : Nat) (name : String) : String :=
  spaces indent ++ "[X] " ++ name ++ " IS NOT FITTED!"

/-- One call of the auditor together with the component graph it leaves
behind.  The body of `audit_deep` contains no assignment to the
estimator or any of its attributes — it only reads and prints — so the
graph a call hands back to its caller is the very graph it received. -/
def audit_run (estimator : Estimator) (name : String) (indent : Nat) :
    (List String × Option String) × Estimator :=
  (audit_deep estimator name indent, estimator)

mutual

/-- Every fitted-check performed during the traversal of this component
returns normally or raises the distinguished `NotFittedError` — i.e.
the check of no visited node raises a foreign exception.  Nodes the
traversal never visits (entries named `"remainder"`, and the contents
of a `ColumnTransformer` without `transformers_`) are unconstrained. -/
def checksOK : Estimator → Bool
  | .leaf st => st.ok
  | .pipeline st steps => st.ok && checksOKSteps steps
  | .colTransformer st none => st.ok
  | .colTransformer st (some ts) => st.ok && checksOKTrans ts

def checksOKSteps : List (String × Estimator) → Bool
  | [] => true
  | (_, s) :: rest => checksOK s && checksOKSteps rest

def checksOKTrans : List (String × Estimator × List String) → Bool
  | [] => true
  | (n, s, _) :: rest => (n == "remainder" || checksOK s) && checksOKTrans rest

end

/-- Outcome of the external `joblib.load(filepath)` call: the
deserialized object, a `FileNotFoundError`, or any other exception
(carrying its message). -/
inductive LoadResult (α : Type) where
  | ok (obj : α)
  | fileNotFound
  | error (msg : String)

/-- `load_model(filepath)` from `ml_utils/utils.py`.  `joblib_load`
models the external `joblib.load`; the result pairs the returned value
(`some` on success, `None` i.e. `none` in both `except` branches) with
the lines the function prints.  No exception channel appears in the
result type because every failure of the load is caught. -/
def load_model {α : Type} (joblib_load : String → LoadResult α) (filepath : String) :
    Option α × List String :=
  match joblib_load filepath with
  | .ok obj => (some obj, ["Model loaded from: " ++ filepath])
  | .fileNotFound => (none, ["Error: File not found at \x27" ++ filepath ++ "\x27"])
  | .error e => (none, ["Error when loading object: " ++ e])

/-- One cell of a pandas dataframe: missing (`NaN`/`None`), a numeric
value (floats modelled as exact rationals), or a non-numeric value. -/
inductive Cell where
  | null
  | num (q : ℚ)
  | str (s : String)
deriving DecidableEq, Repr

/-- One column of a pandas dataframe: its label, its dtype name, and
its cells (top to bottom). -/
structure Column where
  name : String
  dtype : String
  cells : List Cell
deriving DecidableEq, Repr

/-- A pandas dataframe, as the ordered list of its columns.  (In a real
dataframe every column has the same length.) -/
structure DataFrame where
  cols : List Column
deriving Repr

/-- Modelled from `data.select_dtypes(include=[np.number])`: a column
participates in the numeric statistics exactly when its dtype is one of
the numeric dtypes. -/
def isNumericDtype (dtype : String) : Bool :=
  ["int64", "int32", "int16", "int8", "float64", "float32"].contains dtype

/-- `len(data)` — the number of rows. -/
def nrows (data : DataFrame) : Nat :=
  match data.cols with
  | [] => 0
  | c :: _ => c.cells.length

/-- Round to the nearest integer, ties to even — the rounding of
`round` / `numpy.rint` on the exact-rational model of the floats. -/
def pyround (q : ℚ) : ℤ :=
  let f : ℤ := Int.fdiv q.num (q.den : ℤ)
  let frac : ℚ := q - (f : ℚ)
  if frac < 1 / 2 then f
  else if 1 / 2 < frac then f + 1
  else if f % 2 = 0 then f else f + 1

/-- `round(q, 3)` on a series entry, on the exact-rational model of the
floating-point values. -/
def round3 (q : ℚ) : ℚ := (pyround (q * 1000) : ℚ) / 1000

/-- `round(q, 2)` on a series entry, on the exact-rational model of the
floating-point values. -/
def round2 (q : ℚ) : ℚ := (pyround (q * 100) : ℚ) / 100

def cellIsNull : Cell → Bool
  | .null => true
  | _ => false

/-- `x < 0` on a cell: comparisons involving `NaN` are `False`. -/
def cellNeg : Cell → Bool
  | .num q => decide (q < 0)
  | _ => false

/-- `x == 0` on a cell: comparisons involving `NaN` are `False`. -/
def cellZero : Cell → Bool
  | .num q => decide (q = 0)
  | _ => false

/-- `(boolean series).mean()` — the fraction of cells satisfying `p`. -/
def colMean (p : Cell → Bool) (c : Column) : ℚ :=
  (c.cells.countP p : ℚ) / (c.cells.length : ℚ)

/-- `series.dropna().unique()` — the distinct non-null values of a
column, in order of first appearance. -/
def uniqueValues (c : Column) : List Cell :=
  go [] (c.cells.filter fun x => !cellIsNull x)
where
  go (seen : List Cell) : List Cell → List Cell
    | [] => []
    | x :: rest => if x ∈ seen then go seen rest else x :: go (x :: seen) rest

/-- `data.nunique()` for one column — distinct values, `NaN` excluded. -/
def nUnique (c : Column) : Nat := (uniqueValues c).length

/-- The `numeric_stats` dict of `skim_data`: for each numeric column,
its `neg_%` and `zero_%` statistics, keyed by the label of the column. -/
def numeric_stats (data : DataFrame) : List (String × ℚ × ℚ) :=
  (data.cols.filter fun c => isNumericDtype c.dtype).map fun c =>
    (c.name, round3 (colMean cellNeg c * 100), round3 (colMean cellZero c * 100))

/-- `numeric_stats.get(col, {}).get(…)` — lookup of a column label in
the stats dict. -/
def statLookup (stats : List (String × ℚ × ℚ)) (name : String) : Option (ℚ × ℚ) :=
  (stats.find? fun s => s.1 == name).map (·.2)

/-- An entry of the `negative_%` / `zero_%` output columns: either the
string `"-"` or a percentage. -/
inductive PctEntry where
  | dash
  | pct (q : ℚ)
deriving DecidableEq, Repr

/-- One row of the dataframe returned by `skim_data` (the output column
labels `null_%`, `negative_%`, `zero_%`, `unique_%` are spelled
`…_pct` as Lean field names). -/
structure SkimRow where
  feature : String
  dtype : String
  null_pct : ℚ
  negative_pct : PctEntry
  zero_pct : PctEntry
  n_unique : Nat
  unique_pct : ℚ
  sample_values : List Cell
deriving DecidableEq, Repr

/-- The dataframe returned by `skim_data`: its column labels (the keys
of the dict literal, in insertion order) and its rows (one per input
column). -/
structure SkimFrame where
  columns : List String
  rows : List SkimRow
deriving Repr

/-- Row `i` of the input dataframe, for the duplicate-row count. -/
def dfRow (data : DataFrame) (i : Nat) : List Cell :=
  data.cols.map fun c => c.cells.getD i .null

/-- `data.duplicated().sum()` — rows equal to some earlier row. -/
def dupCount (data : DataFrame) : Nat :=
  go [] ((List.range (nrows data)).map (dfRow data))
where
  go (seen : List (List Cell)) : List (List Cell) → Nat
    | [] => 0
    | r :: rest => (if r ∈ seen then 1 else 0) + go (r :: seen) rest

/-- One output row of `skim_data`, for the column `c` of a dataframe
with `n` rows and numeric statistics `stats`: the label, the dtype, the
null percentage, the negative/zero percentages (a number for columns
found in the `numeric_stats` dict, `"-"` otherwise), the distinct-value
count and percentage, and the first five distinct non-null values. -/
def skim_row (stats : List (String × ℚ × ℚ)) (n : Nat) (c : Column) : SkimRow :=
  { feature := c.name
    dtype := c.dtype
    null_pct := round3 (colMean cellIsNull c * 100)
    negative_pct :=
      match statLookup stats c.name with
      | some s => .pct s.1
      | none => .dash
    zero_pct :=
      match statLookup stats c.name with
      | some s => .pct s.2
      | none => .dash
    n_unique := nUnique c
    unique_pct := round2 ((nUnique c : ℚ) / (n : ℚ) * 100)
    sample_values := (uniqueValues c).take 5 }

/-- `skim_data(data)` from `ml_utils/utils.py`: the returned summary
dataframe (one `skim_row` per input column, in input order) paired with
the two printed lines. -/
def skim_data (data : DataFrame) : SkimFrame × List String :=
  ({ columns := ["feature", "dtype", "null_%", "negative_%", "zero_%",
                 "n_unique", "unique_%", "sample_values"]
     rows := data.cols.map (skim_row (numeric_stats data) (nrows data)) },
   ["Total duplicate rows: " ++ toString (dupCount data),
    "DF shape: (" ++ toString (nrows data) ++ ", " ++ toString data.cols.length ++ ")"])

/-! ## Helper lemmas -/

theorem mem_take_one_or_tail {α : Type} {l : List α} {x : α} (h : x ∈ l) :
    x ∈ l.take 1 ∨ x ∈ l.tail := by
  cases l with
  | nil => cases h
  | cons a t =>
    rcases List.mem_cons.mp h with h1 | h2
    · left; simp [h1]
    · right; exact h2

/-- An exception other than `NotFittedError` from the fitted-check is
not caught: nothing is printed for the node and the message escapes at
once, before any shape dispatch. -/
theorem audit_deep_faulty (e : Estimator) (name : String) (d : Nat) (msg : String)
    (h : check_is_fitted e = .faulty msg) : audit_deep e name d = ([], some msg) := by
  cases e <;> (simp only [check_is_fitted] at h; subst h; rfl)

theorem checksOK_ok {e : Estimator} (h : checksOK e = true) :
    (check_is_fitted e).ok = true := by
  cases e with
  | leaf st => simpa [checksOK, check_is_fitted] using h
  | pipeline st steps =>
    rw [checksOK, Bool.and_eq_true] at h
    simpa [check_is_fitted] using h.1
  | colTransformer st ts =>
    cases ts with
    | none => simpa [checksOK, check_is_fitted] using h
    | some l =>
      rw [checksOK, Bool.and_eq_true] at h
      simpa [check_is_fitted] using h.1

theorem FitStatus.ok_cases {st : FitStatus} (h : st.ok = true) :
    st = .fitted ∨ st = .notFitted := by
  cases st <;> simp_all [FitStatus.ok]

theorem audit_deep_pipeline (st : FitStatus) (steps : List (String × Estimator))
    (name : String) (d : Nat) (h : st.ok = true) :
    audit_deep (.pipeline st steps) name d
      = ((if st = .fitted then fitted_line d name else not_fitted_line d name)
           :: (audit_steps steps (d + 1)).1,
         (audit_steps steps (d + 1)).2) := by
  rcases FitStatus.ok_cases h with rfl | rfl <;> rfl

theorem audit_deep_colTransformer (st : FitStatus)
    (ts : List (String × Estimator × List String)) (name : String) (d : Nat)
    (h : st.ok = true) :
    audit_deep (.colTransformer st (some ts)) name d
      = ((if st = .fitted then fitted_line d name else not_fitted_line d name)
           :: (audit_transformers ts (d + 1)).1,
         (audit_transformers ts (d + 1)).2) := by
  rcases FitStatus.ok_cases h with rfl | rfl <;> rfl

theorem audit_steps_cons_ok (nm : String) (s : Estimator)
    (rest : List (String × Estimator)) (d : Nat) (lines : List String)
    (h : audit_deep s ("Step: " ++ nm) d = (lines, none)) :
    audit_steps ((nm, s) :: rest) d
      = (lines ++ (audit_steps rest d).1, (audit_steps rest d).2) := by
  have base : audit_steps ((nm, s) :: rest) d
      = (match (audit_deep s ("Step: " ++ nm) d).2 with
         | some msg => ((audit_deep s ("Step: " ++ nm) d).1, some msg)
         | none => ((audit_deep s ("Step: " ++ nm) d).1 ++ (audit_steps rest d).1,
                    (audit_steps rest d).2)) := rfl
  rw [base, h]

theorem audit_steps_cons_fault (nm : String) (s : Estimator)
    (rest : List (String × Estimator)) (d : Nat) (lines : List String) (msg : String)
    (h : audit_deep s ("Step: " ++ nm) d = (lines, some msg)) :
    audit_steps ((nm, s) :: rest) d = (lines, some msg) := by
  have base : audit_steps ((nm, s) :: rest) d
      = (match (audit_deep s ("Step: " ++ nm) d).2 with
         | some m => ((audit_deep s ("Step: " ++ nm) d).1, some m)
         | none => ((audit_deep s ("Step: " ++ nm) d).1 ++ (audit_steps rest d).1,
                    (audit_steps rest d).2)) := rfl
  rw [base, h]

theorem audit_transformers_cons_ok (nm : String) (s : Estimator) (cols : List String)
    (rest : List (String × Estimator × List String)) (d : Nat) (lines : List String)
    (hnm : ¬nm = "remainder")
    (h : audit_deep s ("Transformer: " ++ nm) d = (lines, none)) :
    audit_transformers ((nm, s, cols) :: rest) d
      = (lines ++ (audit_transformers rest d).1, (audit_transformers rest d).2) := by
  have base : audit_transformers ((nm, s, cols) :: rest) d
      = (if nm = "remainder" then audit_transformers rest d
         else
           match (audit_deep s ("Transformer: " ++ nm) d).2 with
           | some msg => ((audit_deep s ("Transformer: " ++ nm) d).1, some msg)
           | none => ((audit_deep s ("Transformer: " ++ nm) d).1
                        ++ (audit_transformers rest d).1,
                      (audit_transformers rest d).2)) := rfl
  rw [base, if_neg hnm, h]

theorem audit_transformers_cons_fault (nm : String) (s : Estimator) (cols : List String)
    (rest : List (String × Estimator × List String)) (d : Nat) (lines : List String)
    (msg : String) (hnm : ¬nm = "remainder")
    (h : audit_deep s ("Transformer: " ++ nm) d = (lines, some msg)) :
    audit_transformers ((nm, s, cols) :: rest) d = (lines, some msg) := by
  have base : audit_transformers ((nm, s, cols) :: rest) d
      = (if nm = "remainder" then audit_transformers rest d
         else
           match (audit_deep s ("Transformer: " ++ nm) d).2 with
           | some m => ((audit_deep s ("Transformer: " ++ nm) d).1, some m)
           | none => ((audit_deep s ("Transformer: " ++ nm) d).1
                        ++ (audit_transformers rest d).1,
                      (audit_transformers rest d).2)) := rfl
  rw [base, if_neg hnm, h]

theorem audit_transformers_cons_remainder (s : Estimator) (cols : List String)
    (rest : List (String × Estimator × List String)) (d : Nat) :
    audit_transformers (("remainder", s, cols) :: rest) d
      = audit_transformers rest d := rfl

/-- Every report line of the traversal of one component: the first line
(if any) is the report of the component itself, at exactly the given
depth and name; every later line is the report of a strictly deeper
component.  The auxiliary motives state that every line of a step or
transformer walk at child indentation `d` sits at depth at least `d`. -/
theorem audit_lines_shape : ∀ (e : Estimator) (name : String) (d : Nat),
    (∀ l ∈ (audit_deep e name d).1.take 1,
        l = fitted_line d name ∨ l = not_fitted_line d name)
    ∧ (∀ l ∈ (audit_deep e name d).1.tail,
        ∃ k nm, d + 1 ≤ k ∧ (l = fitted_line k nm ∨ l = not_fitted_line k nm)) := by
  refine audit_deep.induct
    (fun e name d =>
      (∀ l ∈ (audit_deep e name d).1.take 1,
          l = fitted_line d name ∨ l = not_fitted_line d name)
      ∧ (∀ l ∈ (audit_deep e name d).1.tail,
          ∃ k nm, d + 1 ≤ k ∧ (l = fitted_line k nm ∨ l = not_fitted_line k nm)))
    (fun ts d => ∀ l ∈ (audit_transformers ts d).1,
        ∃ k nm, d ≤ k ∧ (l = fitted_line k nm ∨ l = not_fitted_line k nm))
    (fun ss d => ∀ l ∈ (audit_steps ss d).1,
        ∃ k nm, d ≤ k ∧ (l = fitted_line k nm ∨ l = not_fitted_line k nm))
    ?_ ?_ ?_ ?_ ?_ ?_ ?_ ?_ ?_ ?_ ?_
  · -- the fitted-check raised a foreign exception: no lines at all
    intro t name indent msg h
    rw [audit_deep_faulty t name indent msg h]
    exact ⟨by simp, by simp⟩
  · -- pipeline: own line, then the step walk at indent + 1
    intro name indent status steps hnf ih
    have hok : FitStatus.ok status = true := by
      cases status with
      | fitted => rfl
      | notFitted => rfl
      | faulty msg => exact (hnf msg rfl).elim
    rcases FitStatus.ok_cases hok with rfl | rfl
    · have h1 : audit_deep (.pipeline .fitted steps) name indent
          = (fitted_line indent name :: (audit_steps steps (indent + 1)).1,
             (audit_steps steps (indent + 1)).2) := rfl
      rw [h1]
      constructor
      · intro l hl; left; simpa using hl
      · intro l hl; exact ih l hl
    · have h1 : audit_deep (.pipeline .notFitted steps) name indent
          = (not_fitted_line indent name :: (audit_steps steps (indent + 1)).1,
             (audit_steps steps (indent + 1)).2) := rfl
      rw [h1]
      constructor
      · intro l hl; right; simpa using hl
      · intro l hl; exact ih l hl
  · -- column-transformer with transformers_: own line, then the entry walk
    intro name indent status ts hnf ih
    have hok : FitStatus.ok status = true := by
      cases status with
      | fitted => rfl
      | notFitted => rfl
      | faulty msg => exact (hnf msg rfl).elim
    rcases FitStatus.ok_cases hok with rfl | rfl
    · have h1 : audit_deep (.colTransformer .fitted (some ts)) name indent
          = (fitted_line indent name :: (audit_transformers ts (indent + 1)).1,
             (audit_transformers ts (indent + 1)).2) := rfl
      rw [h1]
      constructor
      · intro l hl; left; simpa using hl
      · intro l hl; exact ih l hl
    · have h1 : audit_deep (.colTransformer .notFitted (some ts)) name indent
          = (not_fitted_line indent name :: (audit_transformers ts (indent + 1)).1,
             (audit_transformers ts (indent + 1)).2) := rfl
      rw [h1]
      constructor
      · intro l hl; right; simpa using hl
      · intro l hl; exact ih l hl
  · -- leaf shapes: exactly the own line
    intro t name indent hnf hpipe hcolt
    have hok : FitStatus.ok (check_is_fitted t) = true := by
      cases h : check_is_fitted t with
      | fitted => rfl
      | notFitted => rfl
      | faulty msg => exact (hnf msg h).elim
    cases t with
    | leaf st =>
      rcases FitStatus.ok_cases hok with h | h <;>
        simp only [check_is_fitted] at h <;> subst h
      · have h1 : audit_deep (.leaf .fitted) name indent
            = ([fitted_line indent name], none) := rfl
        rw [h1]
        exact ⟨by intro l hl; left; simpa using hl, by simp⟩
      · have h1 : audit_deep (.leaf .notFitted) name indent
            = ([not_fitted_line indent name], none) := rfl
        rw [h1]
        exact ⟨by intro l hl; right; simpa using hl, by simp⟩
    | pipeline st steps => exact (hpipe st steps rfl).elim
    | colTransformer st ts =>
      cases ts with
      | some l => exact (hcolt st l rfl).elim
      | none =>
        rcases FitStatus.ok_cases hok with h | h <;>
          simp only [check_is_fitted] at h <;> subst h
        · have h1 : audit_deep (.colTransformer .fitted none) name indent
              = ([fitted_line indent name], none) := rfl
          rw [h1]
          exact ⟨by intro l hl; left; simpa using hl, by simp⟩
        · have h1 : audit_deep (.colTransformer .notFitted none) name indent
              = ([not_fitted_line indent name], none) := rfl
          rw [h1]
          exact ⟨by intro l hl; right; simpa using hl, by simp⟩
  · -- empty step list
    intro indent l hl
    have h0 : (audit_steps [] indent).1 = [] := rfl
    rw [h0] at hl
    cases hl
  · -- step whose recursive call aborts: its lines are still reported
    intro indent step_name step_obj rest r msg hmsg ih
    have hr : audit_deep step_obj ("Step: " ++ step_name) indent = (r.1, some msg) := by
      rw [← hmsg]
    rw [audit_steps_cons_fault step_name step_obj rest indent r.1 msg hr]
    intro l hl
    rcases mem_take_one_or_tail hl with h | h
    · exact ⟨indent, "Step: " ++ step_name, le_refl indent, ih.1 l h⟩
    · obtain ⟨k, nm, hk, hor⟩ := ih.2 l h
      exact ⟨k, nm, le_trans (Nat.le_succ indent) hk, hor⟩
  · -- step whose recursive call returns: its lines, then the rest
    intro indent step_name step_obj rest r hmsg ih ihrest
    have hr : audit_deep step_obj ("Step: " ++ step_name) indent = (r.1, none) := by
      rw [← hmsg]
    rw [audit_steps_cons_ok step_name step_obj rest indent r.1 hr]
    intro l hl
    rcases List.mem_append.mp hl with h | h
    · rcases mem_take_one_or_tail h with h1 | h1
      · exact ⟨indent, "Step: " ++ step_name, le_refl indent, ih.1 l h1⟩
      · obtain ⟨k, nm, hk, hor⟩ := ih.2 l h1
        exact ⟨k, nm, le_trans (Nat.le_succ indent) hk, hor⟩
    · exact ihrest l h
  · -- empty transformer list
    intro indent l hl
    have h0 : (audit_transformers [] indent).1 = [] := rfl
    rw [h0] at hl
    cases hl
  · -- the "remainder" entry: skipped entirely
    intro indent trans_obj cols rest ih
    rw [audit_transformers_cons_remainder trans_obj cols rest indent]
    exact ih
  · -- transformer entry whose recursive call aborts
    intro indent trans_name trans_obj cols rest hnm r msg hmsg ih
    have hr : audit_deep trans_obj ("Transformer: " ++ trans_name) indent
        = (r.1, some msg) := by rw [← hmsg]
    rw [audit_transformers_cons_fault trans_name trans_obj cols rest indent r.1 msg hnm hr]
    intro l hl
    rcases mem_take_one_or_tail hl with h | h
    · exact ⟨indent, "Transformer: " ++ trans_name, le_refl indent, ih.1 l h⟩
    · obtain ⟨k, nm, hk, hor⟩ := ih.2 l h
      exact ⟨k, nm, le_trans (Nat.le_succ indent) hk, hor⟩
  · -- transformer entry whose recursive call returns
    intro indent trans_name trans_obj cols rest hnm r hmsg ih ihrest
    have hr : audit_deep trans_obj ("Transformer: " ++ trans_name) indent
        = (r.1, none) := by rw [← hmsg]
    rw [audit_transformers_cons_ok trans_name trans_obj cols rest indent r.1 hnm hr]
    intro l hl
    rcases List.mem_append.mp hl with h | h
    · rcases mem_take_one_or_tail h with h1 | h1
      · exact ⟨indent, "Transformer: " ++ trans_name, le_refl indent, ih.1 l h1⟩
      · obtain ⟨k, nm, hk, hor⟩ := ih.2 l h1
        exact ⟨k, nm, le_trans (Nat.le_succ indent) hk, hor⟩
    · exact ihrest l h

/-! ## Claim theorems -/

/-- Claim C1 counterexample.  The claim quantifies over every pipeline
`[("a", X), ("b", Y)]` whose own check and the check on `X` signal
fitted while the check on `Y` signals not-fitted; when `X` is itself a
composite (here a one-step pipeline) the auditor recurses into it and
prints 4 lines, not 3. -/
theorem audit_deep_two_step_pipeline_counterexample :
    check_is_fitted (Estimator.pipeline .fitted
        [("a", .pipeline .fitted [("c", .leaf .fitted)]), ("b", .leaf .notFitted)])
      = .fitted
    ∧ check_is_fitted (Estimator.pipeline .fitted [("c", .leaf .fitted)]) = .fitted
    ∧ check_is_fitted (Estimator.leaf .notFitted) = .notFitted
    ∧ (audit_deep (Estimator.pipeline .fitted
        [("a", .pipeline .fitted [("c", .leaf .fitted)]), ("b", .leaf .notFitted)])
        "root" 0).1.length ≠ 3 := by
  refine ⟨rfl, rfl, rfl, ?_⟩
  decide

/-- Claim C1, amended: for the sequential pipeline with steps
`[("a", X), ("b", Y)]` where `X` and `Y` are leaf (non-composite)
components, the check on the pipeline and on `X` signalling fitted and
on `Y` signalling not-fitted, `audit_deep` prints exactly the 3 lines
of the claim, in order, and returns normally. -/
theorem audit_deep_two_step_pipeline :
    audit_deep (Estimator.pipeline .fitted
        [("a", .leaf .fitted), ("b", .leaf .notFitted)]) "root" 0
      = (["[✓] root is fitted.",
          "  [✓] Step: a is fitted.",
          "  [X] Step: b IS NOT FITTED!"], none) := by
  decide

/-- Claim C3: a `ColumnTransformer` that is not yet fitted has no
`transformers_` attribute; auditing it prints exactly its own
not-fitted line and recurses into nothing, at every name and depth. -/
theorem audit_deep_unfitted_colTransformer (name : String) (d : Nat) :
    audit_deep (.colTransformer .notFitted none) name d
      = ([not_fitted_line d name], none) := rfl

/-- Claim C5: the shape dispatch is over the mutually exclusive
constructors of `Estimator` (`pipeline` checked first, then
`colTransformer`); a component of neither composite shape — a leaf —
produces exactly one output line, whose marker matches the outcome of
its fitted-check, and no recursion. -/
theorem audit_deep_leaf_report (name : String) (d : Nat) :
    audit_deep (.leaf .fitted) name d = ([fitted_line d name], none)
    ∧ audit_deep (.leaf .notFitted) name d = ([not_fitted_line d name], none) :=
  ⟨rfl, rfl⟩

/-- Claim C7: the auditor is deterministic and read-only.  `audit_run`
pairs the printed output with the component graph the call leaves
behind — the body of `audit_deep` never mutates the estimator, so a
second run on the graph left by a first run is a run on the same graph
and produces byte-identical output; the graph is returned unchanged,
and no value beyond the printed lines (and a propagated exception) is
produced. -/
theorem audit_run_deterministic (e : Estimator) (name : String) (d : Nat) :
    (audit_run (audit_run e name d).2 name d).1 = (audit_run e name d).1
    ∧ (audit_run (audit_run e name d).2 name d).2 = e
    ∧ (audit_run e name d).1 = audit_deep e name d :=
  ⟨rfl, rfl, rfl⟩

/-- Claim C8: `load_model` returns the deserialized object on success
and `None` — never an exception, the result type has no exception
channel — both on a missing file and on any other fault, printing one
line in every case (the error message in the failure cases). -/
theorem load_model_total (α : Type) (joblib_load : String → LoadResult α)
    (fp : String) :
    (∀ obj, joblib_load fp = .ok obj →
      load_model joblib_load fp = (some obj, ["Model loaded from: " ++ fp]))
    ∧ (joblib_load fp = .fileNotFound →
      load_model joblib_load fp
        = (none, ["Error: File not found at \x27" ++ fp ++ "\x27"]))
    ∧ (∀ msg, joblib_load fp = .error msg →
      load_model joblib_load fp = (none, ["Error when loading object: " ++ msg]))
    ∧ (load_model joblib_load fp).2.length = 1 := by
  refine ⟨?_, ?_, ?_, ?_⟩
  · intro obj h; simp [load_model, h]
  · intro h; simp [load_model, h]
  · intro msg h; simp [load_model, h]
  · cases h : joblib_load fp <;> simp [load_model, h]

theorem load_model_total_witness :
    load_model (fun _ => (LoadResult.fileNotFound : LoadResult Nat)) "m.pkl"
      = (none, ["Error: File not found at \x27" ++ "m.pkl" ++ "\x27"]) :=
  (load_model_total Nat (fun _ => .fileNotFound) "m.pkl").2.1 rfl

theorem audit_steps_leaf_length (ls : List (String × FitStatus)) (d : Nat)
    (h : ∀ p ∈ ls, FitStatus.ok p.2 = true) :
    (audit_steps (ls.map fun p => (p.1, Estimator.leaf p.2)) d).1.length
      = ls.length := by
  revert h
  induction ls generalizing d with
  | nil => intro h; rfl
  | cons p rest ih =>
    intro h
    obtain ⟨nm, st⟩ := p
    have hok : FitStatus.ok st = true := h (nm, st) (List.mem_cons_self _ _)
    have hrest : ∀ q ∈ rest, FitStatus.ok q.2 = true :=
      fun q hq => h q (List.mem_cons_of_mem _ hq)
    rcases FitStatus.ok_cases hok with rfl | rfl
    · simp only [List.map_cons]
      rw [audit_steps_cons_ok nm (Estimator.leaf .fitted) _ d
        [fitted_line d ("Step: " ++ nm)] rfl]
      simp [ih d hrest]
    · simp only [List.map_cons]
      rw [audit_steps_cons_ok nm (Estimator.leaf .notFitted) _ d
        [not_fitted_line d ("Step: " ++ nm)] rfl]
      simp [ih d hrest]

/-- Claim C9: pipeline recursion is unconditional on the fitted status
of the pipeline itself — an unfitted pipeline walks its steps exactly
as a fitted one does, in declaration order; with `n` leaf steps the
unfitted pipeline prints its own not-fitted line followed by `n`
step reports. -/
theorem audit_deep_unfitted_pipeline_recurses
    (steps : List (String × Estimator)) (name : String) (d : Nat) :
    (audit_deep (.pipeline .notFitted steps) name d).1
        = not_fitted_line d name :: (audit_steps steps (d + 1)).1
    ∧ (audit_deep (.pipeline .fitted steps) name d).1
        = fitted_line d name :: (audit_steps steps (d + 1)).1
    ∧ (∀ ls : List (String × FitStatus),
        (∀ p ∈ ls, FitStatus.ok p.2 = true) →
        steps = ls.map (fun p => (p.1, Estimator.leaf p.2)) →
        (audit_deep (.pipeline .notFitted steps) name d).1.length = steps.length + 1) := by
  refine ⟨rfl, rfl, ?_⟩
  intro ls hok hls
  subst hls
  have h1 : (audit_deep (.pipeline .notFitted
        (ls.map fun p => (p.1, Estimator.leaf p.2))) name d).1
      = not_fitted_line d name
          :: (audit_steps (ls.map fun p => (p.1, Estimator.leaf p.2)) (d + 1)).1 := rfl
  rw [h1]
  simp [audit_steps_leaf_length _ _ hok]

theorem audit_deep_unfitted_pipeline_recurses_witness :
    (audit_deep (.pipeline .notFitted [("a", Estimator.leaf .fitted)]) "root" 0).1.length
      = [("a", Estimator.leaf FitStatus.fitted)].length + 1 :=
  (audit_deep_unfitted_pipeline_recurses [("a", Estimator.leaf .fitted)] "root" 0).2.2
    [("a", FitStatus.fitted)] (by decide) rfl

/-- Claim C6: every line printed by an audit at depth `d` has the form
`indent ++ marker ++ " " ++ name ++ " " ++ suffix` — it equals
`fitted_line k nm` or `not_fitted_line k nm` for some depth `k ≥ d` and
some label `nm`, where the indentation of `fitted_line k nm` is two
spaces repeated `k` times; the first line is the report of the audited
component itself, at exactly depth `d` with exactly the given name; and
every later line comes from a recursive call, made at `depth + 1`, so
it sits at depth at least `d + 1` — instantiating this theorem at any
recursive call (made at the parent depth plus one by definition of
`audit_deep`) places the head line of that call at exactly two spaces
more than its parent. -/
theorem audit_deep_line_format (e : Estimator) (name : String) (d : Nat) :
    (∀ l ∈ (audit_deep e name d).1,
        ∃ k nm, d ≤ k ∧ (l = fitted_line k nm ∨ l = not_fitted_line k nm))
    ∧ (∀ l ∈ (audit_deep e name d).1.take 1,
        l = fitted_line d name ∨ l = not_fitted_line d name)
    ∧ (∀ l ∈ (audit_deep e name d).1.tail,
        ∃ k nm, d + 1 ≤ k ∧ (l = fitted_line k nm ∨ l = not_fitted_line k nm)) := by
  obtain ⟨h1, h2⟩ := audit_lines_shape e name d
  refine ⟨?_, h1, h2⟩
  intro l hl
  rcases mem_take_one_or_tail hl with h | h
  · exact ⟨d, name, le_refl d, h1 l h⟩
  · obtain ⟨k, nm, hk, hor⟩ := h2 l h
    exact ⟨k, nm, le_trans (Nat.le_succ d) hk, hor⟩

theorem audit_deep_line_format_witness :
    ∃ k nm, 1 ≤ k ∧ ("  [✓] Step: a is fitted." = fitted_line k nm
      ∨ "  [✓] Step: a is fitted." = not_fitted_line k nm) :=
  (audit_deep_line_format (.pipeline .fitted [("a", .leaf .fitted)]) "root" 0).2.2
    "  [✓] Step: a is fitted." (by decide)

/-- Claim C4: during the fitted-check, exactly the distinguished
not-fitted condition is caught.  A check that raises `NotFittedError`
is reported as the failure line and the traversal continues; a check
that raises anything else prints nothing for that node and the
exception escapes `audit_deep` — in particular a foreign exception
inside the first step of a pipeline aborts the whole traversal after
the root line, and the remaining steps are never audited. -/
theorem audit_deep_catches_only_not_fitted :
    (∀ (e : Estimator) (name : String) (d : Nat) (msg : String),
        check_is_fitted e = .faulty msg → audit_deep e name d = ([], some msg))
    ∧ (∀ (e : Estimator) (name : String) (d : Nat),
        check_is_fitted e = .notFitted →
        (audit_deep e name d).1.take 1 = [not_fitted_line d name])
    ∧ (∀ (st : FitStatus) (sn : String) (s : Estimator)
        (rest : List (String × Estimator)) (name : String) (d : Nat) (msg : String),
        FitStatus.ok st = true → check_is_fitted s = .faulty msg →
        (audit_deep (.pipeline st ((sn, s) :: rest)) name d).2 = some msg
        ∧ (audit_deep (.pipeline st ((sn, s) :: rest)) name d).1.length = 1) := by
  refine ⟨audit_deep_faulty, ?_, ?_⟩
  · intro e name d h
    cases e with
    | leaf st => simp only [check_is_fitted] at h; subst h; rfl
    | pipeline st steps => simp only [check_is_fitted] at h; subst h; rfl
    | colTransformer st ts =>
      simp only [check_is_fitted] at h; subst h
      cases ts <;> rfl
  · intro st sn s rest name d msg hok hf
    have hs : audit_steps ((sn, s) :: rest) (d + 1) = ([], some msg) :=
      audit_steps_cons_fault sn s rest (d + 1) [] msg
        (audit_deep_faulty s ("Step: " ++ sn) (d + 1) msg hf)
    rcases FitStatus.ok_cases hok with rfl | rfl
    · constructor
      · show (audit_steps ((sn, s) :: rest) (d + 1)).2 = some msg
        rw [hs]
      · show (fitted_line d name :: (audit_steps ((sn, s) :: rest) (d + 1)).1).length = 1
        rw [hs]
        rfl
    · constructor
      · show (audit_steps ((sn, s) :: rest) (d + 1)).2 = some msg
        rw [hs]
      · show (not_fitted_line d name :: (audit_steps ((sn, s) :: rest) (d + 1)).1).length = 1
        rw [hs]
        rfl

theorem audit_deep_catches_only_not_fitted_witness :
    audit_deep (Estimator.leaf (.faulty "boom")) "root" 0 = ([], some "boom") :=
  audit_deep_catches_only_not_fitted.1 (Estimator.leaf (.faulty "boom")) "root" 0 "boom" rfl

/-- When every check the traversal performs is fault-free, the call
returns normally. -/
theorem audit_deep_no_fault : ∀ (e : Estimator) (name : String) (d : Nat),
    checksOK e = true → (audit_deep e name d).2 = none := by
  refine audit_deep.induct
    (fun e name d => checksOK e = true → (audit_deep e name d).2 = none)
    (fun ts d => checksOKTrans ts = true → (audit_transformers ts d).2 = none)
    (fun ss d => checksOKSteps ss = true → (audit_steps ss d).2 = none)
    ?_ ?_ ?_ ?_ ?_ ?_ ?_ ?_ ?_ ?_ ?_
  · intro t name indent msg h hOK
    have hok := checksOK_ok hOK
    rw [h] at hok
    simp [FitStatus.ok] at hok
  · intro name indent status steps _ ih hOK
    have hOK' : (FitStatus.ok status && checksOKSteps steps) = true := hOK
    rw [Bool.and_eq_true] at hOK'
    obtain ⟨h1, h2⟩ := hOK'
    rcases FitStatus.ok_cases h1 with rfl | rfl
    · show (audit_steps steps (indent + 1)).2 = none
      exact ih h2
    · show (audit_steps steps (indent + 1)).2 = none
      exact ih h2
  · intro name indent status ts _ ih hOK
    have hOK' : (FitStatus.ok status && checksOKTrans ts) = true := hOK
    rw [Bool.and_eq_true] at hOK'
    obtain ⟨h1, h2⟩ := hOK'
    rcases FitStatus.ok_cases h1 with rfl | rfl
    · show (audit_transformers ts (indent + 1)).2 = none
      exact ih h2
    · show (audit_transformers ts (indent + 1)).2 = none
      exact ih h2
  · intro t name indent hnf hpipe hcolt hOK
    have hok : FitStatus.ok (check_is_fitted t) = true := checksOK_ok hOK
    cases t with
    | leaf st =>
      rcases FitStatus.ok_cases hok with h | h <;>
        simp only [check_is_fitted] at h <;> subst h <;> rfl
    | pipeline st steps => exact (hpipe st steps rfl).elim
    | colTransformer st ts =>
      cases ts with
      | some l => exact (hcolt st l rfl).elim
      | none =>
        rcases FitStatus.ok_cases hok with h | h <;>
          simp only [check_is_fitted] at h <;> subst h <;> rfl
  · intro indent _
    rfl
  · intro indent step_name step_obj rest r msg hmsg ih hOK
    have hOK' : (checksOK step_obj && checksOKSteps rest) = true := hOK
    rw [Bool.and_eq_true] at hOK'
    obtain ⟨h1, _⟩ := hOK'
    have hnone := ih h1
    have hmsg' : (audit_deep step_obj ("Step: " ++ step_name) indent).2 = some msg := hmsg
    rw [hnone] at hmsg'
    cases hmsg'
  · intro indent step_name step_obj rest r hmsg ih ihrest hOK
    have hOK' : (checksOK step_obj && checksOKSteps rest) = true := hOK
    rw [Bool.and_eq_true] at hOK'
    obtain ⟨h1, h2⟩ := hOK'
    have hr : audit_deep step_obj ("Step: " ++ step_name) indent = (r.1, none) := by
      rw [← hmsg]
    rw [audit_steps_cons_ok step_name step_obj rest indent r.1 hr]
    exact ihrest h2
  · intro indent _
    rfl
  · intro indent trans_obj cols rest ih hOK
    have hOK' : (("remainder" == "remainder" || checksOK trans_obj)
        && checksOKTrans rest) = true := hOK
    rw [Bool.and_eq_true] at hOK'
    obtain ⟨_, h2⟩ := hOK'
    rw [audit_transformers_cons_remainder trans_obj cols rest indent]
    exact ih h2
  · intro indent trans_name trans_obj cols rest hnm r msg hmsg ih hOK
    have hOK' : ((trans_name == "remainder" || checksOK trans_obj)
        && checksOKTrans rest) = true := hOK
    rw [Bool.and_eq_true] at hOK'
    obtain ⟨h1, _⟩ := hOK'
    have hbeq : (trans_name == "remainder") = false := by
      simpa using hnm
    rw [hbeq, Bool.false_or] at h1
    have hnone := ih h1
    have hmsg' : (audit_deep trans_obj ("Transformer: " ++ trans_name) indent).2
        = some msg := hmsg
    rw [hnone] at hmsg'
    cases hmsg'
  · intro indent trans_name trans_obj cols rest hnm r hmsg ih ihrest hOK
    have hOK' : ((trans_name == "remainder" || checksOK trans_obj)
        && checksOKTrans rest) = true := hOK
    rw [Bool.and_eq_true] at hOK'
    obtain ⟨_, h2⟩ := hOK'
    have hr : audit_deep trans_obj ("Transformer: " ++ trans_name) indent
        = (r.1, none) := by rw [← hmsg]
    rw [audit_transformers_cons_ok trans_name trans_obj cols rest indent r.1 hnm hr]
    exact ihrest h2

/-- Dropping the `"remainder"` entries from `transformers_` before the
walk changes nothing: those entries are never audited, whatever their
own status. -/
theorem audit_transformers_skip_remainder :
    ∀ (ts : List (String × Estimator × List String)) (d : Nat),
      audit_transformers ts d
        = audit_transformers (ts.filter fun t => !(t.1 == "remainder")) d := by
  intro ts
  induction ts with
  | nil => intro d; rfl
  | cons p rest ih =>
    intro d
    obtain ⟨nm, s, cols⟩ := p
    by_cases hnm : nm = "remainder"
    · subst hnm
      rw [audit_transformers_cons_remainder s cols rest d]
      simp only [List.filter_cons, beq_self_eq_true, Bool.not_true,
        Bool.false_eq_true, if_false]
      exact ih d
    · have hbeq : (!(nm == "remainder")) = true := by simpa using hnm
      cases hr2 : (audit_deep s ("Transformer: " ++ nm) d).2 with
      | some msg =>
        have hpair : audit_deep s ("Transformer: " ++ nm) d
            = ((audit_deep s ("Transformer: " ++ nm) d).1, some msg) := by rw [← hr2]
        rw [audit_transformers_cons_fault nm s cols rest d _ msg hnm hpair]
        simp only [List.filter_cons, hbeq, if_pos]
        rw [audit_transformers_cons_fault nm s cols _ d _ msg hnm hpair]
      | none =>
        have hpair : audit_deep s ("Transformer: " ++ nm) d
            = ((audit_deep s ("Transformer: " ++ nm) d).1, none) := by rw [← hr2]
        rw [audit_transformers_cons_ok nm s cols rest d _ hnm hpair]
        simp only [List.filter_cons, hbeq, if_pos]
        rw [audit_transformers_cons_ok nm s cols _ d _ hnm hpair, ih d]

/-- Under fault-free checks the transformer walk reports, in order, the
lines of each non-`"remainder"` entry. -/
theorem audit_transformers_eq_flatMap :
    ∀ (ts : List (String × Estimator × List String)) (d : Nat),
      checksOKTrans ts = true →
      audit_transformers ts d
        = ((ts.filter fun t => !(t.1 == "remainder")).flatMap
             (fun t => (audit_deep t.2.1 ("Transformer: " ++ t.1) d).1), none) := by
  intro ts
  induction ts with
  | nil => intro d _; rfl
  | cons p rest ih =>
    intro d h
    obtain ⟨nm, s, cols⟩ := p
    have h' : ((nm == "remainder" || checksOK s) && checksOKTrans rest) = true := h
    rw [Bool.and_eq_true] at h'
    obtain ⟨h1, h2⟩ := h'
    by_cases hnm : nm = "remainder"
    · subst hnm
      rw [audit_transformers_cons_remainder s cols rest d]
      simp only [List.filter_cons, beq_self_eq_true, Bool.not_true,
        Bool.false_eq_true, if_false]
      exact ih d h2
    · have hbeq : (!(nm == "remainder")) = true := by simpa using hnm
      have hok : checksOK s = true := by
        have : (nm == "remainder") = false := by simpa using hnm
        rw [this, Bool.false_or] at h1
        exact h1
      have hc : (audit_deep s ("Transformer: " ++ nm) d).2 = none :=
        audit_deep_no_fault s ("Transformer: " ++ nm) d hok
      have hpair : audit_deep s ("Transformer: " ++ nm) d
          = ((audit_deep s ("Transformer: " ++ nm) d).1, none) := by rw [← hc]
      rw [audit_transformers_cons_ok nm s cols rest d _ hnm hpair, ih d h2]
      simp [List.filter_cons, hbeq]

/-- Claim C2: the transformer walk of a fitted column-transformer never
prints anything for a `"remainder"` entry, whatever that entry is —
filtering the remainder entries away beforehand gives the identical
walk — and (under fault-free checks) it recurses into every remaining
resolved entry in resolution order, labelled `"Transformer: " ++ name`,
at depth `d + 1`. -/
theorem audit_deep_colTransformer_entries :
    (∀ (ts : List (String × Estimator × List String)) (d : Nat),
        audit_transformers ts d
          = audit_transformers (ts.filter fun t => !(t.1 == "remainder")) d)
    ∧ (∀ (ts : List (String × Estimator × List String)) (name : String) (d : Nat),
        checksOKTrans ts = true →
        audit_deep (.colTransformer .fitted (some ts)) name d
          = (fitted_line d name
               :: (ts.filter fun t => !(t.1 == "remainder")).flatMap
                    (fun t => (audit_deep t.2.1 ("Transformer: " ++ t.1) (d + 1)).1),
             none)) := by
  constructor
  · exact audit_transformers_skip_remainder
  · intro ts name d h
    have h1 : audit_deep (.colTransformer .fitted (some ts)) name d
        = (fitted_line d name :: (audit_transformers ts (d + 1)).1,
           (audit_transformers ts (d + 1)).2) := rfl
    rw [h1, audit_transformers_eq_flatMap ts (d + 1) h]

theorem audit_deep_colTransformer_entries_witness :
    audit_deep (.colTransformer .fitted (some
        [("num", Estimator.leaf .fitted, ["c1"]),
         ("remainder", Estimator.leaf .notFitted, ["c2"])])) "root" 0
      = (fitted_line 0 "root"
           :: ([("num", Estimator.leaf FitStatus.fitted, ["c1"]),
                ("remainder", Estimator.leaf FitStatus.notFitted, ["c2"])].filter
                  fun t => !(t.1 == "remainder")).flatMap
                (fun t => (audit_deep t.2.1 ("Transformer: " ++ t.1) 1).1),
         none) :=
  audit_deep_colTransformer_entries.2
    [("num", Estimator.leaf .fitted, ["c1"]),
     ("remainder", Estimator.leaf .notFitted, ["c2"])] "root" 0 (by decide)

/-- When the column labels of the input are pairwise distinct, a
non-numeric column is never found in the `numeric_stats` dict (which is
keyed by the labels of the numeric columns only). -/
theorem statLookup_eq_none (df : DataFrame) (c : Column)
    (hc : c ∈ df.cols) (hna : (df.cols.map Column.name).Nodup)
    (hnum : isNumericDtype c.dtype = false) :
    statLookup (numeric_stats df) c.name = none := by
  have hfind : ((numeric_stats df).find? fun s => s.1 == c.name) = none := by
    refine List.find?_eq_none.mpr ?_
    intro s hs
    rw [numeric_stats] at hs
    obtain ⟨c2, hc2, rfl⟩ := List.mem_map.mp hs
    obtain ⟨hc2mem, hc2num⟩ := List.mem_filter.mp hc2
    intro hbeq
    have hname : c2.name = c.name := by simpa using hbeq
    have : c2 = c := List.inj_on_of_nodup_map hna hc2mem hc hname
    subst this
    rw [hnum] at hc2num
    cases hc2num
  rw [statLookup, hfind]
  rfl

/-- Claim C10 counterexample.  The claim quantifies over every
non-empty dataframe; with two columns both labelled `"a"`, one numeric
and one not, the `numeric_stats` dict lookup for the non-numeric
`"object"` column finds the stats stored under the shared label, so its
`negative_%` entry is a number, not the string `"-"`. -/
theorem skim_data_duplicate_label_counterexample :
    0 < nrows (DataFrame.mk
        [Column.mk "a" "int64" [Cell.num 1], Column.mk "a" "object" [Cell.num 2]])
    ∧ isNumericDtype "object" = false
    ∧ (((skim_data (DataFrame.mk
          [Column.mk "a" "int64" [Cell.num 1],
           Column.mk "a" "object" [Cell.num 2]])).1.rows.map
            SkimRow.negative_pct)[1]?
        ≠ some PctEntry.dash) := by
  refine ⟨by decide, by decide, ?_⟩
  intro h
  rw [show (skim_data (DataFrame.mk
        [Column.mk "a" "int64" [Cell.num 1],
         Column.mk "a" "object" [Cell.num 2]])).1.rows.map SkimRow.negative_pct
      = [PctEntry.pct (round3 (colMean cellNeg (Column.mk "a" "int64" [Cell.num 1]) * 100)),
         PctEntry.pct (round3 (colMean cellNeg (Column.mk "a" "int64" [Cell.num 1]) * 100))]
    from rfl] at h
  simp at h

/-- Claim C10, amended: for every non-empty input dataframe **whose
column labels are pairwise distinct**, `skim_data` returns a dataframe
with the eight output columns `feature`, `dtype`, `null_%`,
`negative_%`, `zero_%`, `n_unique`, `unique_%`, `sample_values`, one
row per input column in input order carrying the label and dtype of
that column, and with the string `"-"` in the `negative_%` and `zero_%`
entries of every non-numeric column. -/
theorem skim_data_shape (df : DataFrame)
    (hrows : 0 < nrows df)
    (hna : (df.cols.map Column.name).Nodup) :
    (skim_data df).1.columns
      = ["feature", "dtype", "null_%", "negative_%", "zero_%",
         "n_unique", "unique_%", "sample_values"]
    ∧ (skim_data df).1.rows.length = df.cols.length
    ∧ (skim_data df).1.rows.map SkimRow.feature = df.cols.map Column.name
    ∧ ∀ (i : Nat) (r : SkimRow), (skim_data df).1.rows[i]? = some r →
        ∃ c : Column, df.cols[i]? = some c ∧ r.feature = c.name ∧ r.dtype = c.dtype
          ∧ (isNumericDtype c.dtype = false →
              r.negative_pct = PctEntry.dash ∧ r.zero_pct = PctEntry.dash) := by
  have hrw : (skim_data df).1.rows
      = df.cols.map (skim_row (numeric_stats df) (nrows df)) := rfl
  refine ⟨rfl, by rw [hrw]; simp, by rw [hrw]; simp [skim_row], ?_⟩
  intro i r hr
  rw [hrw, List.getElem?_map] at hr
  cases hcc : df.cols[i]? with
  | none => rw [hcc] at hr; cases hr
  | some c =>
    rw [hcc] at hr
    have hrc : r = skim_row (numeric_stats df) (nrows df) c :=
      (Option.some.inj hr).symm
    subst hrc
    have hmem : c ∈ df.cols := by
      have := List.getElem?_eq_some_iff.mp hcc
      obtain ⟨hlt, hget⟩ := this
      exact hget ▸ List.getElem_mem hlt
    refine ⟨c, rfl, rfl, rfl, ?_⟩
    intro hnum
    have hlook : statLookup (numeric_stats df) c.name = none :=
      statLookup_eq_none df c hmem hna hnum
    constructor
    · show (match statLookup (numeric_stats df) c.name with
        | some s => PctEntry.pct s.1
        | none => PctEntry.dash) = PctEntry.dash
      rw [hlook]
    · show (match statLookup (numeric_stats df) c.name with
        | some s => PctEntry.pct s.2
        | none => PctEntry.dash) = PctEntry.dash
      rw [hlook]

theorem skim_data_shape_witness :
    (skim_data (DataFrame.mk
        [Column.mk "a" "int64" [Cell.num 1, Cell.null],
         Column.mk "b" "object" [Cell.str "x", Cell.str "y"]])).1.rows.length
      = (DataFrame.mk
        [Column.mk "a" "int64" [Cell.num 1, Cell.null],
         Column.mk "b" "object" [Cell.str "x", Cell.str "y"]]).cols.length :=
  (skim_data_shape (DataFrame.mk
      [Column.mk "a" "int64" [Cell.num 1, Cell.null],
       Column.mk "b" "object" [Cell.str "x", Cell.str "y"]])
    (by decide) (by decide)).2.1

end MlUtils
